import Mathlib

/-!
Formal model of the snapshot ("expect") testing engine implemented in
`expect_test.py`, together with proofs about its snapshot lifecycle and
conflict-resolution behaviour.

The embedding is shallow:

* Python values that can reach `_serialize_value` are modelled by `PyVal`;
  the JSON-like trees produced by `_serialize_value` (and stored in the
  snapshot file) are modelled by `Value`.  Numbers are modelled as integers;
  floating-point values and their formatting are outside the scope of this
  development (the source itself leaves float formatting as an open
  question).  Mapping keys are modelled as strings, which is the only key
  form the snapshot engine itself creates or compares.
* File-system state is explicit: the durable snapshot file is carried as an
  optional string of bytes, and the parsed durable mapping is carried
  alongside it (the JSON round trip between the two is assumed faithful for
  JSON-representable trees).
* `datetime.now()` timestamps, the test-site metadata gathered from stack
  frames, and the `md5` digest primitive are nondeterministic or opaque
  effects; they enter the model as explicit parameters (`md5` as an
  arbitrary function `String → String` applied to exactly the text the
  source hashes).
* Console output (diff printing, the "✓ ..." status lines) is modelled only
  by which status line a run would print (`Report`); the text of raised
  exceptions is modelled exactly.
-/

/-- JSON-like value trees: the output domain of `_serialize_value` and the
content of the snapshot store.  `seq` covers Python lists (and tuples, which
`_serialize_value` converts to lists); `dict` is an insertion-ordered
string-keyed mapping, exactly as a Python `dict` that holds JSON data. -/
inductive Value where
  | null
  | bool (b : Bool)
  | int (n : Int)
  | str (s : String)
  | seq (xs : List Value)
  | dict (kvs : List (String × Value))

/-- Python values reaching `_serialize_value`: `None`, scalars, lists,
tuples, dicts, objects exposing `__dict__` (modelled by their attribute
mapping), and anything else via its `str(...)` display form. -/
inductive PyVal where
  | none
  | bool (b : Bool)
  | int (n : Int)
  | str (s : String)
  | list (xs : List PyVal)
  | tuple (xs : List PyVal)
  | dict (kvs : List (String × PyVal))
  | obj (attrs : List (String × PyVal))
  | other (display : String)

mutual

/-- Model of `_serialize_value` (expect_test.py lines 145-160): `None` and
scalars pass through, lists and tuples both become a list of serialized
elements, dicts keep their keys and serialize their values, objects with
`__dict__` are serialized like the dict of their attributes (the source
recurses through `vars(value)`; here that recursion is inlined), and
anything else falls back to its display string. -/
def serialize_value : PyVal → Value
  | .none => .null
  | .bool b => .bool b
  | .int n => .int n
  | .str s => .str s
  | .list xs => .seq (serializeList xs)
  | .tuple xs => .seq (serializeList xs)
  | .dict kvs => .dict (serializePairs kvs)
  | .obj attrs => .dict (serializePairs attrs)
  | .other d => .str d

/-- Elementwise `_serialize_value` over a Python list or tuple body. -/
def serializeList : List PyVal → List Value
  | [] => []
  | x :: xs => serialize_value x :: serializeList xs

/-- Valuewise `_serialize_value` over the items of a Python dict. -/
def serializePairs : List (String × PyVal) → List (String × Value)
  | [] => []
  | (k, v) :: rest => (k, serialize_value v) :: serializePairs rest

end

/-- Dictionary lookup, `d[k]` / `k in d`, on the association-list model of a
Python dict (first binding wins; real dicts have unique keys). -/
def lookupKV (k : String) : List (String × Value) → Option Value
  | [] => none
  | p :: rest => if k = p.1 then some p.2 else lookupKV k rest

mutual

/-- Model of the Python `==` used by the engine at
`existing != serialized_result`: structural equality of JSON-like data.
Numbers compare across `bool`/`int` as in Python (`True == 1`); lists
compare pointwise; dicts compare as CPython's `dict_equal` does, by
`len(d1) == len(d2)` together with, for every item `(k, v)` of `d1`,
`k in d2 and v == d2[k]`. -/
def pyEqB (a b : Value) : Bool :=
  match a, b with
  | .null, .null => true
  | .bool x, .bool y => x == y
  | .bool x, .int m => (if x then (1 : Int) else 0) == m
  | .int n, .bool y => n == (if y then (1 : Int) else 0)
  | .int n, .int m => n == m
  | .str s, .str t => s == t
  | .seq xs, .seq ys => pyEqListB xs ys
  | .dict xs, .dict ys => xs.length == ys.length && pyEqPairsB xs ys
  | _, _ => false

/-- Pointwise Python `==` on two lists (unequal lengths compare unequal). -/
def pyEqListB (a b : List Value) : Bool :=
  match a, b with
  | [], [] => true
  | x :: xs, y :: ys => pyEqB x y && pyEqListB xs ys
  | _, _ => false

/-- The per-item side of CPython dict equality: for every item `(k, v)`
walked in `a`, require `k in ys and v == ys[k]`. -/
def pyEqPairsB (a ys : List (String × Value)) : Bool :=
  match a with
  | [] => true
  | (k, v) :: rest =>
    (match lookupKV k ys with
     | some w => pyEqB v w
     | none => false) && pyEqPairsB rest ys

end

/-- Key membership in an association list (`k in d` on the keys). -/
def keyMemB (k : String) : List (String × Value) → Bool
  | [] => false
  | p :: rest => k == p.1 || keyMemB k rest

/-- Keys of the association list are pairwise distinct — true of every
association list that denotes an actual Python dict. -/
def nodupKeysB : List (String × Value) → Bool
  | [] => true
  | (k, _) :: rest => !keyMemB k rest && nodupKeysB rest

mutual

/-- Well-formedness of a value tree as the image of a Python value: every
mapping in the tree has pairwise distinct keys (Python dicts cannot hold
duplicate keys, so every tree the engine actually handles is well-formed). -/
def wfB : Value → Bool
  | .null => true
  | .bool _ => true
  | .int _ => true
  | .str _ => true
  | .seq xs => wfListB xs
  | .dict kvs => nodupKeysB kvs && wfPairsB kvs

/-- Well-formedness of every element of a sequence body. -/
def wfListB : List Value → Bool
  | [] => true
  | x :: xs => wfB x && wfListB xs

/-- Well-formedness of every value of a mapping body. -/
def wfPairsB : List (String × Value) → Bool
  | [] => true
  | (_, v) :: rest => wfB v && wfPairsB rest

end

/-- Strict code-point lexicographic order on character lists: the order
Python uses to compare strings, hence the order behind
`json.dumps(..., sort_keys=True)`.  (The core `String` order instances do
not reduce inside the kernel, so the order is defined directly.) -/
def strLtB : List Char → List Char → Bool
  | [], [] => false
  | [], _ :: _ => true
  | _ :: _, [] => false
  | c :: cs, d :: ds => c.toNat < d.toNat || (c.toNat == d.toNat && strLtB cs ds)

/-- Reflexive string comparison `a <= b` derived from the strict order. -/
def keyLeB (a b : String) : Bool := !(strLtB b.data a.data)

/-- Stable insertion of a key/value pair into a key-sorted list: the new
pair goes in front of pairs with an equal key, matching the stability of
Python's `sorted`. -/
def insertByKey (p : String × Value) : List (String × Value) → List (String × Value)
  | [] => [p]
  | q :: qs => if keyLeB p.1 q.1 then p :: q :: qs else q :: insertByKey p qs

/-- Stable sort of an association list by key, the reordering
`json.dumps(..., sort_keys=True)` applies to every mapping it serializes. -/
def sortByKey : List (String × Value) → List (String × Value)
  | [] => []
  | p :: ps => insertByKey p (sortByKey ps)

mutual

/-- Recursively sort every mapping of a value tree by key.  Serializing
`sortTree v` without sorting produces exactly the text
`json.dumps(v, sort_keys=True)` produces, since `sort_keys` reorders every
mapping at serialization time. -/
def sortTree : Value → Value
  | .null => .null
  | .bool b => .bool b
  | .int n => .int n
  | .str s => .str s
  | .seq xs => .seq (sortTreeList xs)
  | .dict kvs => .dict (sortByKey (sortTreePairs kvs))

/-- `sortTree` on every element of a sequence body. -/
def sortTreeList : List Value → List Value
  | [] => []
  | x :: xs => sortTree x :: sortTreeList xs

/-- `sortTree` on every value of a mapping body. -/
def sortTreePairs : List (String × Value) → List (String × Value)
  | [] => []
  | (k, v) :: rest => (k, sortTree v) :: sortTreePairs rest

end

/-- JSON string escaping for one character, as `json.dumps` performs it on
the printable ASCII range (escapes for control characters other than
newline, tab and carriage return, and the non-ASCII `\uXXXX` escapes, are
not modelled; no string the engine builds or the claims mention needs
them). -/
def jstrChar (c : Char) : String :=
  if c = '"' then "\\\""
  else if c = '\\' then "\\\\"
  else if c = '\n' then "\\n"
  else if c = '\t' then "\\t"
  else if c = '\r' then "\\r"
  else String.mk [c]

/-- A JSON string literal: quoted and escaped. -/
def jstr (s : String) : String := "\"" ++ String.join (s.data.map jstrChar) ++ "\""

/-- A run of `n` spaces, for `json.dumps(..., indent=...)` indentation. -/
def spaces (n : Nat) : String := String.mk (List.replicate n ' ')

/-- Join a list of strings with a separator, as `sep.join(items)`. -/
def joinSep (sep : String) : List String → String
  | [] => ""
  | [x] => x
  | x :: y :: rest => x ++ sep ++ joinSep sep (y :: rest)

mutual

/-- Model of `json.dumps(v)` / `json.dumps(v, indent=i)` without
`sort_keys`: `ind = none` is the compact form with separators `", "` and
`": "`; `ind = some i` is the indented form, where elements sit on their own
lines at `(lvl+1)*i` spaces and the closing bracket at `lvl*i` spaces.
`lvl` is the current nesting depth (0 at the top level). -/
def jdumpRaw (ind : Option Nat) (lvl : Nat) : Value → String
  | .null => "null"
  | .bool b => if b then "true" else "false"
  | .int n => toString n
  | .str s => jstr s
  | .seq xs =>
    match xs with
    | [] => "[]"
    | _ =>
      match ind with
      | none => "[" ++ joinSep ", " (jdumpRawList none 0 xs) ++ "]"
      | some i =>
        "[\n" ++
          joinSep ",\n" ((jdumpRawList (some i) (lvl + 1) xs).map
            (fun t => spaces ((lvl + 1) * i) ++ t)) ++
          "\n" ++ spaces (lvl * i) ++ "]"
  | .dict kvs =>
    match kvs with
    | [] => "\x7b\x7d"
    | _ =>
      match ind with
      | none => "\x7b" ++ joinSep ", " (jdumpRawPairs none 0 kvs) ++ "\x7d"
      | some i =>
        "\x7b\n" ++
          joinSep ",\n" ((jdumpRawPairs (some i) (lvl + 1) kvs).map
            (fun t => spaces ((lvl + 1) * i) ++ t)) ++
          "\n" ++ spaces (lvl * i) ++ "\x7d"

/-- The serialized forms of the elements of a sequence body. -/
def jdumpRawList (ind : Option Nat) (lvl : Nat) : List Value → List String
  | [] => []
  | v :: vs => jdumpRaw ind lvl v :: jdumpRawList ind lvl vs

/-- The serialized `"key": value` items of a mapping body. -/
def jdumpRawPairs (ind : Option Nat) (lvl : Nat) : List (String × Value) → List String
  | [] => []
  | (k, v) :: rest => (jstr k ++ ": " ++ jdumpRaw ind lvl v) :: jdumpRawPairs ind lvl rest

end

/-- The text `json.dumps(v, sort_keys=True, default=str)` (expect_test.py
line 270): the canonical compact serialization the engine hashes. -/
def dumpsForHash (v : Value) : String := jdumpRaw none 0 (sortTree v)

/-- Model of `hashlib.md5(json.dumps(v, sort_keys=True, default=str)
.encode()).hexdigest()` (lines 269-271).  The digest primitive itself is an
opaque parameter `md5`; the model fixes exactly the text it is applied to,
so equal canonical texts give equal digests for every digest function. -/
def result_hash (md5 : String → String) (v : Value) : String := md5 (dumpsForHash v)

/-- The text `json.dumps(v, indent=2)` (no key sorting), as used in the
mismatch `AssertionError` message (lines 288-290). -/
def dumpsIndent2 (v : Value) : String := jdumpRaw (some 2) 0 v

/-- The bytes `json.dump(snapshots, f, indent=2, sort_keys=True,
default=str)` writes for the whole store mapping (line 114). -/
def dumpStoreFile (snapshots : List (String × Value)) : String :=
  jdumpRaw (some 2) 0 (sortTree (.dict snapshots))

/-- Conflict resolution strategies (the `ConflictResolution` enum, lines
20-25). -/
inductive ConflictResolution where
  | interactive
  | accept_new
  | keep_old
  | fail
deriving DecidableEq

/-- The fields of the global `ExpectTestConfig` (lines 48-60) that the
engine logic reads.  `snapshot_dir` and `auto_accept` only influence file
placement and configuration convenience and are not modelled. -/
structure ExpectTestConfig where
  conflict_resolution : ConflictResolution
  ci_mode : Bool
  show_diffs : Bool

/-- The exceptional ways an engine operation can finish: the
`AssertionError`s of the mismatch paths, the `ValueError` of an empty
inline block, the `UnboundLocalError` at `return result`, an I/O error
during commit, `sys.exit` from the interactive prompt, and the state of
blocking forever on prompt input. -/
inductive RunError where
  | assertionError (msg : String)
  | valueError (msg : String)
  | unboundLocal (varName : String)
  | ioError (msg : String)
  | systemExit (code : Nat)
  | blockedOnInput
deriving DecidableEq

/-- Which "✓ ..." status line a successful run prints (lines 284, 293,
298). -/
inductive Report where
  | created
  | passed
  | updated
deriving DecidableEq

/-- The interactive prompt loop of `_handle_conflict` (lines 215-227):
responses are consumed from `prompts` (already lowercased, as the source
lowercases the input); "y" accepts, "n" rejects, "d" re-shows the diff and
re-prompts, "q" exits the process (`sys.exit(1)`), anything else
re-prompts.  The source blocks waiting for input when no response arrives;
exhausting `prompts` is modelled as the distinguished outcome
`RunError.blockedOnInput`. -/
def interactive_loop (prompts : List String) : Except RunError Bool :=
  match prompts with
  | [] => .error .blockedOnInput
  | r :: rest =>
    if r = "y" then .ok true
    else if r = "n" then .ok false
    else if r = "d" then interactive_loop rest
    else if r = "q" then .error (.systemExit 1)
    else interactive_loop rest

/-- Model of `_handle_conflict` (lines 195-227).  Returns `.ok accepted`
when the source function returns, `.error e` when it raises (mode FAIL
raises `AssertionError` directly, line 210) or exits (interactive "q").
Diff printing (lines 212-213, 222) is console output with no effect on the
decision and is not modelled; `old_value`/`new_value` are parameters of the
source function consumed only by that diff output. -/
def handle_conflict (config : ExpectTestConfig) (test_name : String)
    (old_value new_value : Value) (prompts : List String) : Except RunError Bool :=
  if config.ci_mode then
    .ok false
  else
    match config.conflict_resolution with
    | .accept_new => .ok true
    | .keep_old => .ok false
    | .fail => .error (.assertionError ("Snapshot mismatch for test \x27" ++ test_name ++ "\x27"))
    | .interactive => interactive_loop prompts

/-- State of one `SnapshotManager` plus the durable file it is bound to:
`snapshots` is the parsed durable mapping (`self.snapshots`), `pending` the
in-memory buffer (`self.pending_updates`), `file` the bytes currently on
disk (`none` when the file does not exist). -/
structure MState where
  snapshots : List (String × Value)
  pending : List (String × Value)
  file : Option String

/-- Python dict assignment `d[k] = v` on the association-list model:
overwrite in place when the key exists, append otherwise. -/
def setKey : List (String × Value) → String → Value → List (String × Value)
  | [], k, v => [(k, v)]
  | q :: rest, k, v => if k = q.1 then (k, v) :: rest else q :: setKey rest k v

/-- Python `base.update(upd)`: assign every item of `upd`, in order, into
`base`. -/
def dictUpdate (base : List (String × Value)) : List (String × Value) → List (String × Value)
  | [] => base
  | (k, v) :: rest => dictUpdate (setKey base k v) rest

/-- The snapshot-data dict built by `update_snapshot` (lines 128-132):
`{"value": value, "timestamp": datetime.now().isoformat(), **metadata}`,
with the timestamp supplied as a parameter. -/
def mkSnapshotData (value : Value) (timestamp : String)
    (metadata : List (String × Value)) : Value :=
  .dict (("value", value) :: ("timestamp", .str timestamp) :: metadata)

/-- The `value` field of a stored snapshot entry (`entry["value"]`; entries
are always dicts built by `mkSnapshotData`, so the fallbacks are
unreachable). -/
def entryValue : Value → Value
  | .dict kvs => (lookupKV "value" kvs).getD .null
  | _ => .null

/-- Model of `get_snapshot` (lines 118-124): the pending buffer is
consulted first, then the durable mapping. -/
def get_snapshot (m : MState) (test_name : String) : Option Value :=
  match lookupKV test_name m.pending with
  | some e => some (entryValue e)
  | none =>
    match lookupKV test_name m.snapshots with
    | some e => some (entryValue e)
    | none => none

/-- Model of `has_snapshot` (lines 135-137). -/
def has_snapshot (m : MState) (test_name : String) : Bool :=
  (lookupKV test_name m.snapshots).isSome || (lookupKV test_name m.pending).isSome

/-- Model of `update_snapshot` (lines 126-133): stage the new entry in the
pending buffer; durable state is untouched. -/
def update_snapshot (m : MState) (test_name : String) (value : Value)
    (timestamp : String) (metadata : List (String × Value)) : MState :=
  { m with pending := setKey m.pending test_name (mkSnapshotData value timestamp metadata) }

/-- The prefix of `s` containing its first `k` characters — the bytes that
actually reach the disk when a write is interrupted after `k` characters. -/
def takeChars (k : Nat) (s : String) : String := String.mk (s.data.take k)

/-- Model of `_save_snapshots` (lines 105-116) with fault injection.  The
source first merges the pending buffer into the in-memory mapping (line
108), then opens the snapshot file with mode "w" — truncating it — and
streams the serialized mapping into it (lines 113-114); on success the
pending buffer is cleared (line 116).  `fault = some k` simulates an I/O
error once `k` characters have been written: the merge has already happened
in memory, the file holds only the prefix written so far, the pending
buffer is not cleared (the `clear()` is never reached), and the error
propagates to the caller. -/
def save_snapshots (fault : Option Nat) (m : MState) : MState × Option RunError :=
  let merged := dictUpdate m.snapshots m.pending
  let content := dumpStoreFile merged
  match fault with
  | none => ({ snapshots := merged, pending := [], file := some content }, none)
  | some k =>
    ({ snapshots := merged, pending := m.pending, file := some (takeChars k content) },
     some (.ioError "simulated write failure"))

/-- Model of `commit_updates` (lines 139-142): save only when the pending
buffer is non-empty. -/
def commit_updates (fault : Option Nat) (m : MState) : MState × Option RunError :=
  if m.pending.isEmpty then (m, none) else save_snapshots fault m

/-- The captured outcome of executing the wrapped computation (lines
258-266): either its return value, or the kind and text of the exception it
raised. -/
inductive Comp where
  | val (r : PyVal)
  | exc (kind msg : String)

/-- Test-site metadata the decorator reads from the stack frame (lines
247-252). -/
structure SourceLoc where
  file_path : String
  line_number : Int
  function_name : String

/-- The serialized result of the computation (lines 258-266): the
serialized return value, or the `{"exception": ..., "message": ...}` dict
built for a raised error. -/
def serializeOutcome : Comp → Value
  | .val r => serialize_value r
  | .exc kind msg => .dict [("exception", .str kind), ("message", .str msg)]

/-- The metadata dict of the decorator (lines 248-252 plus the `"hash"` key
added on line 272), in its Python insertion order. -/
def metadataDict (loc : SourceLoc) (hash : String) : List (String × Value) :=
  [("file_path", .str loc.file_path), ("line_number", .int loc.line_number),
   ("function_name", .str loc.function_name), ("hash", .str hash)]

/-- What `return result` evaluates to at the end of the wrapper (line 300):
the computation's value when it returned, or an `UnboundLocalError` — the
local `result` was never assigned — when it raised and the `except` branch
ran instead. -/
def retOf : Comp → Except RunError PyVal
  | .val r => .ok r
  | .exc _ _ => .error (.unboundLocal "result")

/-- The detailed mismatch message the wrapper raises when resolution
rejects the new value (lines 287-291). -/
def mismatchMsg (test_name : String) (existing new_value : Value) : String :=
  "Snapshot mismatch for test \x27" ++ test_name ++ "\x27\n" ++
    "Expected: " ++ dumpsIndent2 existing ++ "\n" ++
    "Got: " ++ dumpsIndent2 new_value

/-- Observable outcome of one wrapped test invocation: what the call
returns or raises, the manager/file state it leaves behind, and which
status line it printed. -/
structure RunOut where
  ret : Except RunError PyVal
  snapshots : List (String × Value)
  pending : List (String × Value)
  file : Option String
  report : Option Report

/-- Model of one invocation of the decorated test function — the `wrapper`
closure of `expect` (lines 243-302).  `snapshots0` and `file0` are the
durable state the freshly constructed `SnapshotManager` loads; `timestamp`
stands for `datetime.now().isoformat()`; `fault` injects an I/O failure
into the commit; `prompts` feeds the interactive resolver. -/
def wrapper (md5 : String → String) (config : ExpectTestConfig) (test_name : String)
    (comp : Comp) (loc : SourceLoc) (timestamp : String) (prompts : List String)
    (fault : Option Nat) (snapshots0 : List (String × Value)) (file0 : Option String) :
    RunOut :=
  let m0 : MState := { snapshots := snapshots0, pending := [], file := file0 }
  let serialized_result := serializeOutcome comp
  let metadata := metadataDict loc (result_hash md5 serialized_result)
  if has_snapshot m0 test_name then
    let existing := (get_snapshot m0 test_name).getD .null
    if pyEqB existing serialized_result then
      { ret := retOf comp, snapshots := m0.snapshots, pending := m0.pending,
        file := m0.file, report := some .passed }
    else
      match handle_conflict config test_name existing serialized_result prompts with
      | .error e =>
        { ret := .error e, snapshots := m0.snapshots, pending := m0.pending,
          file := m0.file, report := none }
      | .ok true =>
        let m1 := update_snapshot m0 test_name serialized_result timestamp metadata
        match commit_updates fault m1 with
        | (m2, none) =>
          { ret := retOf comp, snapshots := m2.snapshots, pending := m2.pending,
            file := m2.file, report := some .updated }
        | (m2, some e) =>
          { ret := .error e, snapshots := m2.snapshots, pending := m2.pending,
            file := m2.file, report := none }
      | .ok false =>
        { ret := .error (.assertionError (mismatchMsg test_name existing serialized_result)),
          snapshots := m0.snapshots, pending := m0.pending, file := m0.file,
          report := none }
  else
    let m1 := update_snapshot m0 test_name serialized_result timestamp metadata
    match commit_updates fault m1 with
    | (m2, none) =>
      { ret := retOf comp, snapshots := m2.snapshots, pending := m2.pending,
        file := m2.file, report := some .created }
    | (m2, some e) =>
      { ret := .error e, snapshots := m2.snapshots, pending := m2.pending,
        file := m2.file, report := none }

/-- Durable snapshot-file states distinguished by `_load_snapshots`: no
file, a file `json.load` fails to parse (raising `JSONDecodeError`), or a
file parsing to a store mapping. -/
inductive FileState where
  | missing
  | corrupt (raw : String)
  | wellFormed (entries : List (String × Value))

/-- Result of `_load_snapshots`: the mapping to start from, plus the
warning printed when a corrupt file was recovered from. -/
structure LoadResult where
  snapshots : List (String × Value)
  warning : Option String

/-- Model of `_load_snapshots` (lines 94-103): a missing file yields an
empty mapping; a file that fails to parse yields an empty mapping and a
printed warning (the `JSONDecodeError` is caught); a parseable file yields
its mapping.  The function is total — neither failure mode aborts the
run. -/
def load_snapshots (snapshot_file : String) : FileState → LoadResult
  | .missing => { snapshots := [], warning := none }
  | .corrupt _ =>
    { snapshots := [],
      warning := some ("Warning: Could not parse " ++ snapshot_file ++ ", starting fresh") }
  | .wellFormed entries => { snapshots := entries, warning := none }

/-- Observable outcome of `InlineExpectContext.__exit__`: the value the
method returns (`true` suppresses the in-block exception) or the error it
raises, plus the state it leaves behind. -/
structure InlineOut where
  ret : Except RunError Bool
  snapshots : List (String × Value)
  pending : List (String × Value)
  file : Option String
  report : Option Report

/-- Model of `InlineExpectContext.__exit__` (lines 328-369).  `captured` is
the serialized value recorded by `capture` — `Value.null` when `capture`
was never called, matching the Python `None` sentinel the source tests with
`self.captured is None`; `exc` is the (kind, text) of the exception active
when the block exited, if any.  With nothing captured and no exception, a
`ValueError` is raised before any snapshot comparison or store interaction.
An in-block exception is serialized like the decorator's except-branch and
`__exit__` returns `True` to suppress it; on the reject path the raised
`AssertionError` carries only the test name (line 359). -/
def inline_exit (md5 : String → String) (config : ExpectTestConfig) (name : String)
    (captured : Value) (exc : Option (String × String)) (file_path : String)
    (line_number : Int) (timestamp : String) (prompts : List String) (fault : Option Nat)
    (snapshots0 : List (String × Value)) (file0 : Option String) : InlineOut :=
  let m0 : MState := { snapshots := snapshots0, pending := [], file := file0 }
  match captured, exc with
  | .null, none =>
    { ret := .error (.valueError ("No value captured for test \x27" ++ name ++ "\x27")),
      snapshots := m0.snapshots, pending := m0.pending, file := m0.file,
      report := none }
  | c0, e0 =>
    let captured1 := match e0 with
      | some (kind, msg) => Value.dict [("exception", .str kind), ("message", .str msg)]
      | none => c0
    let metadata : List (String × Value) :=
      [("file_path", .str file_path), ("line_number", .int line_number),
       ("hash", .str (result_hash md5 captured1))]
    if has_snapshot m0 name then
      let existing := (get_snapshot m0 name).getD .null
      if pyEqB existing captured1 then
        { ret := .ok e0.isSome, snapshots := m0.snapshots, pending := m0.pending,
          file := m0.file, report := some .passed }
      else
        match handle_conflict config name existing captured1 prompts with
        | .error e =>
          { ret := .error e, snapshots := m0.snapshots, pending := m0.pending,
            file := m0.file, report := none }
        | .ok true =>
          let m1 := update_snapshot m0 name captured1 timestamp metadata
          match commit_updates fault m1 with
          | (m2, none) =>
            { ret := .ok e0.isSome, snapshots := m2.snapshots, pending := m2.pending,
              file := m2.file, report := some .updated }
          | (m2, some e) =>
            { ret := .error e, snapshots := m2.snapshots, pending := m2.pending,
              file := m2.file, report := none }
        | .ok false =>
          { ret := .error (.assertionError ("Snapshot mismatch for test \x27" ++ name ++ "\x27")),
            snapshots := m0.snapshots, pending := m0.pending, file := m0.file,
            report := none }
    else
      let m1 := update_snapshot m0 name captured1 timestamp metadata
      match commit_updates fault m1 with
      | (m2, none) =>
        { ret := .ok e0.isSome, snapshots := m2.snapshots, pending := m2.pending,
          file := m2.file, report := some .created }
      | (m2, some e) =>
        { ret := .error e, snapshots := m2.snapshots, pending := m2.pending,
          file := m2.file, report := none }

/-- A successful lookup returns a binding of the list. -/
theorem lookupKV_mem : ∀ (l : List (String × Value)) (k : String) (v : Value),
    lookupKV k l = some v → (k, v) ∈ l := by
  intro l
  induction l with
  | nil => intro k v h; simp [lookupKV] at h
  | cons p rest ih =>
    intro k v h
    by_cases hk : k = p.1
    · simp only [lookupKV, if_pos hk, Option.some.injEq] at h
      subst hk
      rw [← h]
      exact List.mem_cons.mpr (Or.inl rfl)
    · exact List.mem_cons_of_mem _ (ih k v (by simpa [lookupKV, if_neg hk] using h))

/-- A key bound somewhere in the list is seen by `keyMemB`. -/
theorem keyMemB_of_mem : ∀ (l : List (String × Value)) (k : String) (v : Value),
    (k, v) ∈ l → keyMemB k l = true := by
  intro l
  induction l with
  | nil => intro k v h; simp at h
  | cons p rest ih =>
    intro k v h
    rcases List.mem_cons.mp h with h | h
    · simp [keyMemB, ← h]
    · simp [keyMemB, ih k v h]

/-- With pairwise-distinct keys, lookup finds exactly the unique binding of
its key. -/
theorem lookupKV_of_mem_nodup : ∀ (l : List (String × Value)) (k : String) (v : Value),
    nodupKeysB l = true → (k, v) ∈ l → lookupKV k l = some v := by
  intro l
  induction l with
  | nil => intro k v _ h; simp at h
  | cons p rest ih =>
    intro k v hnd h
    obtain ⟨k2, v2⟩ := p
    simp only [nodupKeysB, Bool.and_eq_true, Bool.not_eq_true'] at hnd
    rcases List.mem_cons.mp h with h | h
    · rw [Prod.mk.injEq] at h
      simp [lookupKV, h.1, h.2]
    · by_cases hk : k = k2
      · exfalso
        have hm := keyMemB_of_mem rest k v h
        rw [hk] at hm
        rw [hnd.1] at hm
        exact Bool.false_ne_true hm
      · simpa [lookupKV, if_neg hk] using ih k v hnd.2 h

/-- `keyMemB` decides membership of `k` among the keys. -/
theorem keyMemB_iff (k : String) : ∀ (l : List (String × Value)),
    keyMemB k l = true ↔ k ∈ l.map Prod.fst := by
  intro l
  induction l with
  | nil => simp [keyMemB]
  | cons p rest ih => simp [keyMemB, ih]

/-- `nodupKeysB` decides that the key list has no duplicates. -/
theorem nodupKeysB_iff : ∀ (l : List (String × Value)),
    nodupKeysB l = true ↔ (l.map Prod.fst).Nodup := by
  intro l
  induction l with
  | nil => simp [nodupKeysB]
  | cons p rest ih =>
    obtain ⟨k, v⟩ := p
    simp only [nodupKeysB, Bool.and_eq_true, Bool.not_eq_true', List.map_cons,
      List.nodup_cons, ih]
    constructor
    · rintro ⟨h1, h2⟩
      refine ⟨?_, h2⟩
      intro hmem
      have hb := (keyMemB_iff k rest).mpr hmem
      rw [h1] at hb
      exact Bool.false_ne_true hb
    · rintro ⟨h1, h2⟩
      refine ⟨?_, h2⟩
      by_cases hb : keyMemB k rest = true
      · exact absurd ((keyMemB_iff k rest).mp hb) h1
      · simpa using hb

/-- The strict string order is asymmetric. -/
theorem strLtB_asymm : ∀ a b, strLtB a b = true → strLtB b a = true → False := by
  intro a
  induction a with
  | nil => intro b h1 h2; cases b <;> simp [strLtB] at h1 h2
  | cons c cs ih =>
    intro b h1 h2
    cases b with
    | nil => simp [strLtB] at h1
    | cons d ds =>
      simp only [strLtB, Bool.or_eq_true, Bool.and_eq_true, decide_eq_true_eq,
        beq_iff_eq] at h1 h2
      rcases h1 with h1 | ⟨e1, l1⟩ <;> rcases h2 with h2 | ⟨e2, l2⟩
      · omega
      · omega
      · omega
      · exact ih ds l1 l2

/-- The strict string order is transitive. -/
theorem strLtB_trans : ∀ a b c, strLtB a b = true → strLtB b c = true → strLtB a c = true := by
  intro a
  induction a with
  | nil => intro b c h1 h2; cases b <;> cases c <;> simp_all [strLtB]
  | cons x xs ih =>
    intro b c h1 h2
    cases b with
    | nil => simp [strLtB] at h1
    | cons y ys =>
      cases c with
      | nil => simp [strLtB] at h2
      | cons z zs =>
        simp only [strLtB, Bool.or_eq_true, Bool.and_eq_true, decide_eq_true_eq,
          beq_iff_eq] at h1 h2 ⊢
        rcases h1 with h1 | ⟨e1, l1⟩ <;> rcases h2 with h2 | ⟨e2, l2⟩
        · left; omega
        · left; omega
        · left; omega
        · right; exact ⟨by omega, ih ys zs l1 l2⟩

/-- Two character lists neither of which is strictly below the other are
equal. -/
theorem strLtB_connex : ∀ a b, strLtB a b = false → strLtB b a = false → a = b := by
  intro a
  induction a with
  | nil =>
    intro b h1 _
    cases b with
    | nil => rfl
    | cons d ds => simp [strLtB] at h1
  | cons c cs ih =>
    intro b h1 h2
    cases b with
    | nil => simp [strLtB] at h2
    | cons d ds =>
      rw [← Bool.not_eq_true] at h1 h2
      simp only [strLtB, Bool.or_eq_true, Bool.and_eq_true, decide_eq_true_eq,
        beq_iff_eq, not_or, not_and] at h1 h2
      obtain ⟨hn1, hi1⟩ := h1
      obtain ⟨hn2, hi2⟩ := h2
      have he : c.toNat = d.toNat := by omega
      have hcd : c = d := Char.eq_of_val_eq (UInt32.ext he)
      have l1 : strLtB cs ds = false := by
        have := hi1 he
        simp only [Bool.not_eq_true] at this
        exact this
      have l2 : strLtB ds cs = false := by
        have := hi2 he.symm
        simp only [Bool.not_eq_true] at this
        exact this
      rw [hcd, ih ds l1 l2]

/-- Strings with equal character data are equal. -/
theorem string_eq_of_data_eq (a b : String) (h : a.data = b.data) : a = b := by
  cases a
  cases b
  exact congrArg String.mk h

/-- The derived string comparison is total. -/
theorem keyLeB_total (a b : String) : keyLeB a b = true ∨ keyLeB b a = true := by
  simp only [keyLeB, Bool.not_eq_true']
  by_cases h : strLtB b.data a.data = true
  · right
    cases hab : strLtB a.data b.data with
    | false => rfl
    | true => exact (strLtB_asymm _ _ hab h).elim
  · left
    simpa using h

/-- The derived string comparison is transitive. -/
theorem keyLeB_trans (a b c : String) (h1 : keyLeB a b = true) (h2 : keyLeB b c = true) :
    keyLeB a c = true := by
  simp only [keyLeB, Bool.not_eq_true'] at h1 h2 ⊢
  by_cases h : strLtB c.data a.data = true
  · exfalso
    cases hbc : strLtB b.data c.data with
    | false =>
      have he := strLtB_connex _ _ hbc h2
      rw [← he] at h
      rw [h1] at h
      exact Bool.false_ne_true h
    | true =>
      have hba := strLtB_trans _ _ _ hbc h
      rw [h1] at hba
      exact Bool.false_ne_true hba
  · simpa using h

/-- Key order on association-list entries: Python's sort-by-key
comparison. -/
def keyLePair (p q : String × Value) : Prop := keyLeB p.1 q.1 = true

/-- Strict key order on association-list entries. -/
def keyLtPair (p q : String × Value) : Prop := strLtB p.1.data q.1.data = true

/-- Inserting by key permutes consing. -/
theorem insertByKey_perm (p : String × Value) : ∀ (l : List (String × Value)),
    (insertByKey p l).Perm (p :: l) := by
  intro l
  induction l with
  | nil => exact List.Perm.refl _
  | cons q qs ih =>
    simp only [insertByKey]
    split
    · exact List.Perm.refl _
    · exact (ih.cons q).trans (List.Perm.swap p q qs)

/-- Sorting by key permutes the list. -/
theorem sortByKey_perm : ∀ (l : List (String × Value)), (sortByKey l).Perm l := by
  intro l
  induction l with
  | nil => exact List.Perm.refl _
  | cons p ps ih => exact (insertByKey_perm p (sortByKey ps)).trans (ih.cons p)

/-- Members after insertion are the inserted pair or old members. -/
theorem insertByKey_mem (l : List (String × Value)) (p x : String × Value)
    (hx : x ∈ insertByKey p l) : x = p ∨ x ∈ l :=
  List.mem_cons.mp ((insertByKey_perm p l).subset hx)

/-- Inserting into a key-sorted list keeps it key-sorted. -/
theorem insertByKey_sorted (p : String × Value) : ∀ (l : List (String × Value)),
    l.Pairwise keyLePair → (insertByKey p l).Pairwise keyLePair := by
  intro l
  induction l with
  | nil => intro _; simp [insertByKey, keyLePair]
  | cons q qs ih =>
    intro h
    rw [List.pairwise_cons] at h
    obtain ⟨hq, hqs⟩ := h
    simp only [insertByKey]
    split
    · next hle =>
      rw [List.pairwise_cons]
      refine ⟨?_, List.pairwise_cons.mpr ⟨hq, hqs⟩⟩
      intro x hx
      rcases List.mem_cons.mp hx with h | h
      · rw [h]
        exact hle
      · exact keyLeB_trans _ _ _ hle (hq x h)
    · next hle =>
      rw [List.pairwise_cons]
      refine ⟨?_, ih hqs⟩
      intro x hx
      rcases insertByKey_mem qs p x hx with h | h
      · rw [h]
        rcases keyLeB_total q.1 p.1 with ht | ht
        · exact ht
        · exact absurd ht hle
      · exact hq x h

/-- The sort produces a key-sorted list. -/
theorem sortByKey_sorted : ∀ (l : List (String × Value)), (sortByKey l).Pairwise keyLePair := by
  intro l
  induction l with
  | nil => simp [sortByKey]
  | cons p ps ih => exact insertByKey_sorted p (sortByKey ps) ih

/-- A key-sorted list with pairwise distinct keys is strictly key-sorted. -/
theorem pairwise_strict (l : List (String × Value)) (hnd : (l.map Prod.fst).Nodup)
    (hs : l.Pairwise keyLePair) : l.Pairwise keyLtPair := by
  have hne : l.Pairwise (fun p q => p.1 ≠ q.1) := List.pairwise_map.mp hnd
  refine (hs.and hne).imp ?_
  rintro a b ⟨hle, hne2⟩
  simp only [keyLePair, keyLeB, Bool.not_eq_true'] at hle
  cases hab : strLtB a.1.data b.1.data with
  | true => exact hab
  | false =>
    exfalso
    exact hne2 (string_eq_of_data_eq _ _ (strLtB_connex _ _ hab hle))

/-- Sorting by key is invariant under permutation when keys are pairwise
distinct: the canonicalization behind `sort_keys=True` gives permuted
mappings the one same serialization order. -/
theorem sortByKey_eq_of_perm (l1 l2 : List (String × Value)) (hperm : l1.Perm l2)
    (hnd : nodupKeysB l1 = true) : sortByKey l1 = sortByKey l2 := by
  have hchain : (sortByKey l1).Perm (sortByKey l2) :=
    (sortByKey_perm l1).trans (hperm.trans (sortByKey_perm l2).symm)
  have hnd1 : ((sortByKey l1).map Prod.fst).Nodup :=
    (((sortByKey_perm l1).map Prod.fst).nodup_iff).mpr ((nodupKeysB_iff l1).mp hnd)
  have hnd2 : ((sortByKey l2).map Prod.fst).Nodup := (hchain.map Prod.fst).nodup_iff.mp hnd1
  have hs1 : (sortByKey l1).Pairwise keyLtPair := pairwise_strict _ hnd1 (sortByKey_sorted l1)
  have hs2 : (sortByKey l2).Pairwise keyLtPair := pairwise_strict _ hnd2 (sortByKey_sorted l2)
  haveI : IsAntisymm (String × Value) keyLtPair :=
    ⟨fun a b h1 h2 => (strLtB_asymm _ _ h1 h2).elim⟩
  exact List.eq_of_perm_of_sorted hchain hs1 hs2

/-- `sortTreePairs` maps `sortTree` over the values. -/
theorem sortTreePairs_eq_map : ∀ (l : List (String × Value)),
    sortTreePairs l = l.map (fun p => (p.1, sortTree p.2)) := by
  intro l
  induction l with
  | nil => rfl
  | cons p rest ih =>
    obtain ⟨k, v⟩ := p
    simp [sortTreePairs, ih]

/-- Every constructor of `Value` has positive size. -/
theorem value_sizeOf_pos (v : Value) : 1 ≤ sizeOf v := by
  cases v <;> simp

/-- Every element of a well-formed sequence body is well-formed. -/
theorem wfListB_mem : ∀ (l : List Value), wfListB l = true → ∀ x ∈ l, wfB x = true := by
  intro l
  induction l with
  | nil => intro _ x hx; simp at hx
  | cons y ys ih =>
    intro h x hx
    simp only [wfListB, Bool.and_eq_true] at h
    rcases List.mem_cons.mp hx with hx | hx
    · rw [hx]
      exact h.1
    · exact ih h.2 x hx

/-- Every value of a well-formed mapping body is well-formed. -/
theorem wfPairsB_mem : ∀ (l : List (String × Value)), wfPairsB l = true →
    ∀ p ∈ l, wfB p.2 = true := by
  intro l
  induction l with
  | nil => intro _ p hp; simp at hp
  | cons q qs ih =>
    intro h p hp
    obtain ⟨k, v⟩ := q
    simp only [wfPairsB, Bool.and_eq_true] at h
    rcases List.mem_cons.mp hp with hp | hp
    · rw [hp]
      exact h.1
    · exact ih h.2 p hp

/-- Pointwise-reflexive elements give a reflexive list comparison. -/
theorem pyEqListB_refl_of : ∀ (l : List Value),
    (∀ x ∈ l, pyEqB x x = true) → pyEqListB l l = true := by
  intro l
  induction l with
  | nil => intro _; rfl
  | cons x xs ih =>
    intro h
    simp only [pyEqListB, Bool.and_eq_true]
    exact ⟨h x (List.mem_cons_self x xs), ih (fun y hy => h y (List.mem_cons_of_mem x hy))⟩

/-- With pairwise-distinct keys and pointwise-reflexive values, the
per-item dict check succeeds against the list itself. -/
theorem pyEqPairsB_refl_of (full : List (String × Value)) (hnd : nodupKeysB full = true)
    (hrefl : ∀ p ∈ full, pyEqB p.2 p.2 = true) :
    ∀ walk, (∀ p ∈ walk, p ∈ full) → pyEqPairsB walk full = true := by
  intro walk
  induction walk with
  | nil => intro _; rfl
  | cons p rest ih =>
    intro hsub
    obtain ⟨k, v⟩ := p
    simp only [pyEqPairsB, Bool.and_eq_true]
    constructor
    · have hm : (k, v) ∈ full := hsub _ (List.mem_cons_self _ _)
      rw [lookupKV_of_mem_nodup full k v hnd hm]
      exact hrefl _ hm
    · exact ih (fun q hq => hsub q (List.mem_cons_of_mem _ hq))

/-- Size-bounded reflexivity of the modelled Python `==` on well-formed
trees. -/
theorem pyEqB_refl_aux : ∀ (n : Nat) (v : Value), sizeOf v ≤ n → wfB v = true →
    pyEqB v v = true := by
  intro n
  induction n with
  | zero =>
    intro v hv _
    exact absurd hv (by have := value_sizeOf_pos v; omega)
  | succ n ih =>
    intro v hv hwf
    cases v with
    | null => rfl
    | bool b => simp [pyEqB]
    | int m => simp [pyEqB]
    | str s => simp [pyEqB]
    | seq xs =>
      have hall : pyEqListB xs xs = true := by
        apply pyEqListB_refl_of
        intro x hx
        have h1 := List.sizeOf_lt_of_mem hx
        have h2 : sizeOf (Value.seq xs) = 1 + sizeOf xs := by simp
        apply ih x (by omega)
        exact wfListB_mem xs (by simpa [wfB] using hwf) x hx
      simpa [pyEqB] using hall
    | dict kvs =>
      simp only [wfB, Bool.and_eq_true] at hwf
      have hvals : ∀ p ∈ kvs, pyEqB p.2 p.2 = true := by
        intro p hp
        obtain ⟨k, w⟩ := p
        have h1 := List.sizeOf_lt_of_mem hp
        have h2 : sizeOf (Value.dict kvs) = 1 + sizeOf kvs := by simp
        have h3 : sizeOf ((k, w) : String × Value) = 1 + sizeOf k + sizeOf w := by simp
        apply ih w (by omega)
        exact wfPairsB_mem kvs hwf.2 (k, w) hp
      have hp := pyEqPairsB_refl_of kvs hwf.1 hvals kvs (fun q hq => hq)
      simp [pyEqB, hp]

/-- Reflexivity of the modelled Python `==` on well-formed trees (real
Python dicts cannot contain duplicate keys, and none of the modelled
scalars compares unequal to itself — floats, hence `nan`, are out of
scope). -/
theorem pyEqB_refl (v : Value) (h : wfB v = true) : pyEqB v v = true :=
  pyEqB_refl_aux (sizeOf v) v le_rfl h

/-- The `value` field of a freshly built snapshot entry. -/
theorem entryValue_mk (v : Value) (ts : String) (md : List (String × Value)) :
    entryValue (mkSnapshotData v ts md) = v := by
  simp [entryValue, mkSnapshotData, lookupKV]

/-- The entry a creating or accepting run stores for the test. -/
def freshEntry (md5 : String → String) (comp : Comp) (loc : SourceLoc) (ts : String) : Value :=
  mkSnapshotData (serializeOutcome comp) ts
    (metadataDict loc (result_hash md5 (serializeOutcome comp)))

/-- A run against an empty store stages and commits exactly one new entry
and reports "created". -/
theorem wrapper_fresh (md5 : String → String) (config : ExpectTestConfig)
    (test_name : String) (comp : Comp) (loc : SourceLoc) (ts : String)
    (prompts : List String) :
    wrapper md5 config test_name comp loc ts prompts none [] none =
      { ret := retOf comp,
        snapshots := [(test_name, freshEntry md5 comp loc ts)],
        pending := [],
        file := some (dumpStoreFile [(test_name, freshEntry md5 comp loc ts)]),
        report := some .created } := rfl

/-- A run whose stored baseline compares `==` to the fresh serialized
result reports "passed" and leaves every piece of state unchanged. -/
theorem wrapper_pass (md5 : String → String) (config : ExpectTestConfig)
    (test_name : String) (comp : Comp) (loc : SourceLoc) (ts ts0 : String)
    (md0 : List (String × Value)) (prompts : List String) (fault : Option Nat)
    (f0 : Option String) (v : Value)
    (h : pyEqB v (serializeOutcome comp) = true) :
    wrapper md5 config test_name comp loc ts prompts fault
        [(test_name, mkSnapshotData v ts0 md0)] f0 =
      { ret := retOf comp,
        snapshots := [(test_name, mkSnapshotData v ts0 md0)],
        pending := [],
        file := f0,
        report := some .passed } := by
  simp [wrapper, has_snapshot, get_snapshot, lookupKV, entryValue_mk, h]

/-- A run whose resolution returns Reject raises the detailed mismatch
error and leaves every piece of state unchanged. -/
theorem wrapper_reject (md5 : String → String) (config : ExpectTestConfig)
    (test_name : String) (comp : Comp) (loc : SourceLoc) (ts ts0 : String)
    (md0 : List (String × Value)) (prompts : List String) (fault : Option Nat)
    (f0 : Option String) (v : Value)
    (hne : pyEqB v (serializeOutcome comp) = false)
    (hres : handle_conflict config test_name v (serializeOutcome comp) prompts = .ok false) :
    wrapper md5 config test_name comp loc ts prompts fault
        [(test_name, mkSnapshotData v ts0 md0)] f0 =
      { ret := .error (.assertionError (mismatchMsg test_name v (serializeOutcome comp))),
        snapshots := [(test_name, mkSnapshotData v ts0 md0)],
        pending := [],
        file := f0,
        report := none } := by
  simp [wrapper, has_snapshot, get_snapshot, lookupKV, entryValue_mk, hne, hres]

/-- Claim C4: for every configured resolution mode (Interactive, AcceptNew,
KeepOld, Fail), if the CI flag is true and a conflict is triggered, the
resolution outcome is always Reject: `_handle_conflict` returns `False`
before even inspecting the mode, the wrapper then raises the mismatch
`AssertionError`, and the durable mapping, pending buffer and file bytes
are left exactly as they were — the new baseline is never written. -/
theorem ci_mode_always_rejects (m : ConflictResolution) (sd : Bool)
    (md5 : String → String) (test_name : String) (comp : Comp) (loc : SourceLoc)
    (ts ts0 : String) (md0 : List (String × Value)) (prompts : List String)
    (f0 : Option String) (old : Value)
    (hconf : pyEqB old (serializeOutcome comp) = false) :
    handle_conflict ⟨m, true, sd⟩ test_name old (serializeOutcome comp) prompts = .ok false ∧
    wrapper md5 ⟨m, true, sd⟩ test_name comp loc ts prompts none
        [(test_name, mkSnapshotData old ts0 md0)] f0 =
      { ret := .error (.assertionError (mismatchMsg test_name old (serializeOutcome comp))),
        snapshots := [(test_name, mkSnapshotData old ts0 md0)],
        pending := [],
        file := f0,
        report := none } := by
  have h1 : handle_conflict ⟨m, true, sd⟩ test_name old (serializeOutcome comp) prompts =
      .ok false := rfl
  exact ⟨h1, wrapper_reject md5 ⟨m, true, sd⟩ test_name comp loc ts ts0 md0 prompts none
    f0 old hconf h1⟩

/-- Witness for the CI-override theorem: mode = Fail, stored baseline
`{"value": 42}`, computed value `{"value": 43}`. -/
theorem ci_mode_always_rejects_witness :
    pyEqB (.dict [("value", .int 42)])
        (serializeOutcome (.val (.dict [("value", .int 43)]))) = false ∧
    (handle_conflict ⟨.fail, true, true⟩ "t1" (.dict [("value", .int 42)])
        (serializeOutcome (.val (.dict [("value", .int 43)]))) [] = .ok false ∧
     wrapper (fun s => s) ⟨.fail, true, true⟩ "t1" (.val (.dict [("value", .int 43)]))
        ⟨"demo_conflict.py", 28, "test_random_modified"⟩ "T1" [] none
        [("t1", mkSnapshotData (.dict [("value", .int 42)]) "T0" [])] none =
      { ret := .error (.assertionError (mismatchMsg "t1" (.dict [("value", .int 42)])
          (serializeOutcome (.val (.dict [("value", .int 43)]))))),
        snapshots := [("t1", mkSnapshotData (.dict [("value", .int 42)]) "T0" [])],
        pending := [],
        file := none,
        report := none }) :=
  ⟨by decide, ci_mode_always_rejects .fail true (fun s => s) "t1"
    (.val (.dict [("value", .int 43)])) ⟨"demo_conflict.py", 28, "test_random_modified"⟩
    "T1" "T0" [] [] none (.dict [("value", .int 42)]) (by decide)⟩

/-- Fixed mapping `{"value": 42}`, the stored baseline of the scenario in
the specification. -/
def old42 : Value := .dict [("value", .int 42)]

/-- Fixed mapping `{"value": 43}`, the freshly computed value of the same
scenario. -/
def new43 : Value := .dict [("value", .int 43)]

/-- Boolean prefix test on character lists. -/
def isPrefixB : List Char → List Char → Bool
  | [], _ => true
  | _ :: _, [] => false
  | a :: as, b :: bs => a == b && isPrefixB as bs

/-- Boolean substring test on character lists. -/
def containsB (needle : List Char) : List Char → Bool
  | [] => isPrefixB needle []
  | b :: bs => isPrefixB needle (b :: bs) || containsB needle bs

/-- A failure message "carries" a value when the rendering the engine uses
to report values (`json.dumps(..., indent=2)`) occurs inside the message
text. -/
def carriesValue (msg : String) (v : Value) : Bool :=
  containsB (dumpsIndent2 v).data msg.data

/-- Claim C2, counterexample: with mode = Fail (outside CI) and the
specification's own scenario values, `_handle_conflict` raises
`AssertionError("Snapshot mismatch for test 't1'")` directly (line 210 of
the source); that message carries neither the old stored value
`{"value": 42}` nor the new computed value `{"value": 43}`, so the
Fail-mode failure signal does not report them. -/
theorem fail_mode_failure_omits_values :
    handle_conflict ⟨.fail, false, true⟩ "t1" old42 new43 [] =
      .error (.assertionError "Snapshot mismatch for test \x27t1\x27") ∧
    carriesValue "Snapshot mismatch for test \x27t1\x27" old42 = false ∧
    carriesValue "Snapshot mismatch for test \x27t1\x27" new43 = false := by
  refine ⟨rfl, ?_, ?_⟩ <;> decide

/-- Claim C2, amended: when a conflict is detected and the resolution mode
is Fail (CI off), the engine raises a test-failure `AssertionError`, but
its message carries only the test name — `"Snapshot mismatch for test
'<name>'"` — and not the old and new values.  (The failure that does carry
both values, via `mismatchMsg`, is the one the wrapper raises when
`_handle_conflict` returns Reject: CI mode, KeepOld, or an interactive
"n".) -/
theorem fail_mode_raises_name_only (sd : Bool) (test_name : String)
    (old_value new_value : Value) (prompts : List String) :
    handle_conflict ⟨.fail, false, sd⟩ test_name old_value new_value prompts =
      .error (.assertionError ("Snapshot mismatch for test \x27" ++ test_name ++ "\x27")) := rfl

/-- The durable entry for test "t1" holding `{"value": 42}`, as a previous
successful commit would have stored it. -/
def entry42 : Value :=
  mkSnapshotData old42 "2024-01-01T00:00:00"
    (metadataDict ⟨"demo_conflict.py", 20, "test_random"⟩ "d41d8cd98f00b204e9800998ecf8427e")

/-- The staged entry for test "t1" holding `{"value": 43}`. -/
def entry43 : Value :=
  mkSnapshotData new43 "2024-01-02T00:00:00"
    (metadataDict ⟨"demo_conflict.py", 28, "test_random_modified"⟩
      "900150983cd24fb0d6963f7d28e17f72")

/-- The manager state just before the commit of an accepted update: the
durable file holds the bytes of the previous commit, and the pending
buffer stages the accepted new value. -/
def preCommitState : MState :=
  { snapshots := [("t1", entry42)],
    pending := [("t1", entry43)],
    file := some (dumpStoreFile [("t1", entry42)]) }

/-- Claim C1, counterexample: commit is not all-or-nothing.  From a state
whose durable file holds the previous commit's bytes, a commit whose write
fails immediately after `open(..., "w")` truncates the file (zero
characters written) leaves the durable file empty — not byte-identical to
its pre-commit content.  The pending buffer is retained and the failure is
surfaced, but the "durable store content is unchanged" part of the claim
is false: `_save_snapshots` rewrites the store file in place with no
temp-file-and-rename step. -/
theorem commit_write_failure_corrupts_store :
    (commit_updates (some 0) preCommitState).1.file = some "" ∧
    preCommitState.file ≠ some "" ∧
    (commit_updates (some 0) preCommitState).1.pending = preCommitState.pending ∧
    (commit_updates (some 0) preCommitState).2 = some (.ioError "simulated write failure") := by
  refine ⟨rfl, ?_, rfl, rfl⟩
  decide

/-- Claim C1, amended: if the durable write fails during commit, the
pending buffer still contains the attempted updates and the failure is
surfaced to the caller, but the durable store content is not necessarily
unchanged: the store file is truncated and rewritten in place, so the disk
is left with a prefix (possibly empty) of the new serialized mapping
rather than with its pre-commit bytes. -/
theorem commit_failure_retains_pending_and_surfaces (m : MState) (k : Nat)
    (h : m.pending ≠ []) :
    (commit_updates (some k) m).1.pending = m.pending ∧
    (commit_updates (some k) m).2 = some (.ioError "simulated write failure") ∧
    (commit_updates (some k) m).1.file =
      some (takeChars k (dumpStoreFile (dictUpdate m.snapshots m.pending))) := by
  have hne : m.pending.isEmpty = false := by
    cases hp : m.pending with
    | nil => exact absurd hp h
    | cons a l => rfl
  simp [commit_updates, hne, save_snapshots]

/-- Witness for the amended commit-failure theorem at the concrete
pre-commit state. -/
theorem commit_failure_retains_pending_and_surfaces_witness :
    preCommitState.pending ≠ [] ∧
    ((commit_updates (some 0) preCommitState).1.pending = preCommitState.pending ∧
     (commit_updates (some 0) preCommitState).2 = some (.ioError "simulated write failure") ∧
     (commit_updates (some 0) preCommitState).1.file =
       some (takeChars 0 (dumpStoreFile (dictUpdate preCommitState.snapshots
         preCommitState.pending)))) :=
  ⟨by simp [preCommitState],
   commit_failure_retains_pending_and_surfaces preCommitState 0 (by simp [preCommitState])⟩

/-- The captured outcome of the `test_exception` example (`10 / 0`). -/
def zeroDivOutcome : Comp := .exc "ZeroDivisionError" "division by zero"

/-- Claim C3 (code bug): a computation that returns is passed through
unchanged, but a computation that raises does not complete normally.  The
raised error is indeed swallowed into the snapshot — the exception entry
is staged, committed and "created" is reported — yet the wrapper then
executes `return result` (line 300) with the local `result` never assigned
(the assignment on line 259 was skipped by the exception), so the wrapped
invocation raises `UnboundLocalError` instead of completing normally. -/
theorem wrapper_raises_unbound_local_after_captured_error (r : PyVal) :
    (wrapper (fun s => s) ⟨.interactive, false, true⟩ "ok_test" (.val r)
        ⟨"test_examples.py", 93, "test_exception"⟩ "T1" [] none [] none).ret = .ok r ∧
    (wrapper (fun s => s) ⟨.interactive, false, true⟩ "division_by_zero" zeroDivOutcome
        ⟨"test_examples.py", 93, "test_exception"⟩ "T1" [] none [] none).ret =
      .error (.unboundLocal "result") ∧
    (wrapper (fun s => s) ⟨.interactive, false, true⟩ "division_by_zero" zeroDivOutcome
        ⟨"test_examples.py", 93, "test_exception"⟩ "T1" [] none [] none).report =
      some .created ∧
    (wrapper (fun s => s) ⟨.interactive, false, true⟩ "division_by_zero" zeroDivOutcome
        ⟨"test_examples.py", 93, "test_exception"⟩ "T1" [] none [] none).snapshots =
      [("division_by_zero", freshEntry (fun s => s) zeroDivOutcome
        ⟨"test_examples.py", 93, "test_exception"⟩ "T1")] :=
  ⟨rfl, rfl, rfl, rfl⟩

/-- Items whose pairs occur in a distinct-key list compare equal itemwise
against that list when their values are self-equal. -/
theorem pyEqPairsB_sub (ys : List (String × Value)) (hnd : nodupKeysB ys = true) :
    ∀ walk, (∀ p ∈ walk, p ∈ ys) → (∀ p ∈ walk, pyEqB p.2 p.2 = true) →
      pyEqPairsB walk ys = true := by
  intro walk
  induction walk with
  | nil => intro _ _; rfl
  | cons p rest ih =>
    intro hsub hrefl
    obtain ⟨k, v⟩ := p
    simp only [pyEqPairsB, Bool.and_eq_true]
    refine ⟨?_, ih (fun q hq => hsub q (List.mem_cons_of_mem _ hq))
      (fun q hq => hrefl q (List.mem_cons_of_mem _ hq))⟩
    rw [lookupKV_of_mem_nodup ys k v hnd (hsub _ (List.mem_cons_self _ _))]
    exact hrefl _ (List.mem_cons_self _ _)

/-- Claim C5: two normalized mappings with identical key/value pairs in
different insertion order compare equal under the engine's structural
comparison, and their fingerprints are identical for every digest
function, because `json.dumps(..., sort_keys=True)` canonicalizes mapping
key order by sorting the keys before the md5 is taken. -/
theorem mapping_order_invariance (l1 l2 : List (String × Value))
    (hwf : wfB (.dict l1) = true) (hperm : l1.Perm l2) :
    pyEqB (.dict l1) (.dict l2) = true ∧
    ∀ md5 : String → String, result_hash md5 (.dict l1) = result_hash md5 (.dict l2) := by
  simp only [wfB, Bool.and_eq_true] at hwf
  obtain ⟨hnd, hvals⟩ := hwf
  have hnd2 : nodupKeysB l2 = true := by
    rw [nodupKeysB_iff]
    exact (hperm.map Prod.fst).nodup_iff.mp ((nodupKeysB_iff l1).mp hnd)
  constructor
  · have hpairs : pyEqPairsB l1 l2 = true := by
      apply pyEqPairsB_sub l2 hnd2 l1 (fun p hp => hperm.subset hp)
      intro p hp
      exact pyEqB_refl p.2 (wfPairsB_mem l1 hvals p hp)
    simp only [pyEqB]
    rw [hperm.length_eq, hpairs]
    simp
  · have hkeys : (sortTreePairs l1).map Prod.fst = l1.map Prod.fst := by
      rw [sortTreePairs_eq_map, List.map_map]
      rfl
    have hnd1s : nodupKeysB (sortTreePairs l1) = true := by
      rw [nodupKeysB_iff, hkeys]
      exact (nodupKeysB_iff l1).mp hnd
    have hpermS : (sortTreePairs l1).Perm (sortTreePairs l2) := by
      rw [sortTreePairs_eq_map, sortTreePairs_eq_map]
      exact hperm.map _
    have hsort := sortByKey_eq_of_perm _ _ hpermS hnd1s
    intro md5
    have hTree : sortTree (Value.dict l1) = sortTree (Value.dict l2) := by
      show Value.dict (sortByKey (sortTreePairs l1)) =
        Value.dict (sortByKey (sortTreePairs l2))
      rw [hsort]
    show md5 (dumpsForHash (Value.dict l1)) = md5 (dumpsForHash (Value.dict l2))
    unfold dumpsForHash
    rw [hTree]

/-- Witness for mapping-order invariance at `{"a": 1, "b": 2}` versus
`{"b": 2, "a": 1}`. -/
theorem mapping_order_invariance_witness :
    wfB (.dict [("a", .int 1), ("b", .int 2)]) = true ∧
    ([("a", Value.int 1), ("b", Value.int 2)]).Perm
      [("b", Value.int 2), ("a", Value.int 1)] ∧
    (pyEqB (.dict [("a", .int 1), ("b", .int 2)])
        (.dict [("b", .int 2), ("a", .int 1)]) = true ∧
     ∀ md5 : String → String,
       result_hash md5 (.dict [("a", .int 1), ("b", .int 2)]) =
         result_hash md5 (.dict [("b", .int 2), ("a", .int 1)])) :=
  ⟨by decide, List.Perm.swap ("b", Value.int 2) ("a", Value.int 1) [],
   mapping_order_invariance _ _ (by decide)
     (List.Perm.swap ("b", Value.int 2) ("a", Value.int 1) [])⟩

/-- Claim C6: with mode = Fail and an unchanged computation, the first
evaluation creates the baseline, and the two subsequent evaluations both
report "passed" while leaving the store exactly as the first run left it:
no staging (the pending buffer stays empty) and no commit (the durable
mapping and file bytes are untouched) happen on a match. -/
theorem idempotent_rerun_passes (md5 : String → String) (ci sd : Bool)
    (test_name : String) (comp : Comp) (loc : SourceLoc) (ts1 ts2 ts3 : String)
    (prompts : List String)
    (hwf : wfB (serializeOutcome comp) = true) :
    let r1 := wrapper md5 ⟨.fail, ci, sd⟩ test_name comp loc ts1 prompts none [] none
    let r2 := wrapper md5 ⟨.fail, ci, sd⟩ test_name comp loc ts2 prompts none
      r1.snapshots r1.file
    let r3 := wrapper md5 ⟨.fail, ci, sd⟩ test_name comp loc ts3 prompts none
      r2.snapshots r2.file
    r1.report = some Report.created ∧
    r2.report = some Report.passed ∧ r3.report = some Report.passed ∧
    r2.snapshots = r1.snapshots ∧ r2.file = r1.file ∧ r2.pending = [] ∧
    r3.snapshots = r1.snapshots ∧ r3.file = r1.file ∧ r3.pending = [] := by
  intro r1 r2 r3
  have hrefl := pyEqB_refl (serializeOutcome comp) hwf
  have h1 : r1 =
      { ret := retOf comp,
        snapshots := [(test_name, freshEntry md5 comp loc ts1)],
        pending := [],
        file := some (dumpStoreFile [(test_name, freshEntry md5 comp loc ts1)]),
        report := some .created } :=
    wrapper_fresh md5 ⟨.fail, ci, sd⟩ test_name comp loc ts1 prompts
  have h2 : r2 =
      { ret := retOf comp,
        snapshots := [(test_name, freshEntry md5 comp loc ts1)],
        pending := [],
        file := some (dumpStoreFile [(test_name, freshEntry md5 comp loc ts1)]),
        report := some .passed } := by
    show wrapper md5 ⟨.fail, ci, sd⟩ test_name comp loc ts2 prompts none
      r1.snapshots r1.file = _
    rw [h1]
    exact wrapper_pass md5 ⟨.fail, ci, sd⟩ test_name comp loc ts2 ts1
      (metadataDict loc (result_hash md5 (serializeOutcome comp))) prompts none
      (some (dumpStoreFile [(test_name, freshEntry md5 comp loc ts1)]))
      (serializeOutcome comp) hrefl
  have h3 : r3 =
      { ret := retOf comp,
        snapshots := [(test_name, freshEntry md5 comp loc ts1)],
        pending := [],
        file := some (dumpStoreFile [(test_name, freshEntry md5 comp loc ts1)]),
        report := some .passed } := by
    show wrapper md5 ⟨.fail, ci, sd⟩ test_name comp loc ts3 prompts none
      r2.snapshots r2.file = _
    rw [h2]
    exact wrapper_pass md5 ⟨.fail, ci, sd⟩ test_name comp loc ts3 ts1
      (metadataDict loc (result_hash md5 (serializeOutcome comp))) prompts none
      (some (dumpStoreFile [(test_name, freshEntry md5 comp loc ts1)]))
      (serializeOutcome comp) hrefl
  rw [h1, h2, h3]
  exact ⟨rfl, rfl, rfl, rfl, rfl, rfl, rfl, rfl, rfl⟩

/-- Witness for the idempotence theorem at a computation returning
`{"value": 42}`. -/
theorem idempotent_rerun_passes_witness :
    wfB (serializeOutcome (.val (.dict [("value", .int 42)]))) = true ∧
    (let r1 := wrapper (fun s => s) ⟨.fail, false, true⟩ "t1"
       (.val (.dict [("value", .int 42)]))
       ⟨"test_examples.py", 26, "test_fibonacci_basic"⟩ "T1" [] none [] none
     let r2 := wrapper (fun s => s) ⟨.fail, false, true⟩ "t1"
       (.val (.dict [("value", .int 42)]))
       ⟨"test_examples.py", 26, "test_fibonacci_basic"⟩ "T2" [] none
       r1.snapshots r1.file
     let r3 := wrapper (fun s => s) ⟨.fail, false, true⟩ "t1"
       (.val (.dict [("value", .int 42)]))
       ⟨"test_examples.py", 26, "test_fibonacci_basic"⟩ "T3" [] none
       r2.snapshots r2.file
     r1.report = some Report.created ∧
     r2.report = some Report.passed ∧ r3.report = some Report.passed ∧
     r2.snapshots = r1.snapshots ∧ r2.file = r1.file ∧ r2.pending = [] ∧
     r3.snapshots = r1.snapshots ∧ r3.file = r1.file ∧ r3.pending = []) :=
  ⟨by decide, idempotent_rerun_passes (fun s => s) false true "t1"
    (.val (.dict [("value", .int 42)]))
    ⟨"test_examples.py", 26, "test_fibonacci_basic"⟩ "T1" "T2" "T3" [] (by decide)⟩

/-- Claim C7: a computation whose captured outcome is a raised error is
normalized to a mapping with exactly the fixed keys "exception" (the error
kind name) and "message" (the error text) instead of the error
propagating, and that mapping is stored and compared like any other
snapshot value: the first run creates a baseline entry holding it, and
re-capturing the same error passes on the next run. -/
theorem error_normalized_to_exception_mapping (kind msg : String)
    (md5 : String → String) (config : ExpectTestConfig) (test_name : String)
    (loc : SourceLoc) (ts1 ts2 : String) (prompts : List String) :
    serializeOutcome (.exc kind msg) =
      .dict [("exception", .str kind), ("message", .str msg)] ∧
    (let r1 := wrapper md5 config test_name (.exc kind msg) loc ts1 prompts none [] none
     r1.report = some Report.created ∧
     r1.snapshots = [(test_name,
       mkSnapshotData (.dict [("exception", .str kind), ("message", .str msg)]) ts1
         (metadataDict loc (result_hash md5
           (.dict [("exception", .str kind), ("message", .str msg)]))))] ∧
     (wrapper md5 config test_name (.exc kind msg) loc ts2 prompts none
         r1.snapshots r1.file).report = some Report.passed) := by
  refine ⟨rfl, ?_⟩
  intro r1
  have hwf : wfB (serializeOutcome (.exc kind msg)) = true := rfl
  have hrefl := pyEqB_refl (serializeOutcome (.exc kind msg)) hwf
  have h1 : r1 =
      { ret := retOf (.exc kind msg),
        snapshots := [(test_name, freshEntry md5 (.exc kind msg) loc ts1)],
        pending := [],
        file := some (dumpStoreFile [(test_name, freshEntry md5 (.exc kind msg) loc ts1)]),
        report := some .created } :=
    wrapper_fresh md5 config test_name (.exc kind msg) loc ts1 prompts
  have h2 := wrapper_pass md5 config test_name (.exc kind msg) loc ts2 ts1
    (metadataDict loc (result_hash md5 (serializeOutcome (.exc kind msg)))) prompts none
    (some (dumpStoreFile [(test_name, freshEntry md5 (.exc kind msg) loc ts1)]))
    (serializeOutcome (.exc kind msg)) hrefl
  have h3 : wrapper md5 config test_name (.exc kind msg) loc ts2 prompts none
      r1.snapshots r1.file =
    { ret := retOf (.exc kind msg),
      snapshots := [(test_name, mkSnapshotData (serializeOutcome (.exc kind msg)) ts1
        (metadataDict loc (result_hash md5 (serializeOutcome (.exc kind msg)))))],
      pending := [],
      file := some (dumpStoreFile [(test_name, freshEntry md5 (.exc kind msg) loc ts1)]),
      report := some Report.passed } := by
    rw [h1]
    exact h2
  refine ⟨by rw [h1], ?_, by rw [h3]⟩
  rw [h1]
  rfl

/-- Claim C10: `_serialize_value` maps a tuple and a list with the same
elements to the same normalized sequence, so a computation that changes a
tuple result into the list of the same elements is reported "passed"
against the tuple-created baseline — the conflict path is never entered —
and the store is untouched, whatever the configured mode. -/
theorem tuple_list_normalize_equal (xs : List PyVal) (md5 : String → String)
    (config : ExpectTestConfig) (test_name : String) (loc : SourceLoc)
    (ts1 ts2 : String) (prompts : List String)
    (hwf : wfB (serialize_value (.list xs)) = true) :
    serialize_value (.tuple xs) = serialize_value (.list xs) ∧
    (let r1 := wrapper md5 config test_name (.val (.tuple xs)) loc ts1 prompts none [] none
     let r2 := wrapper md5 config test_name (.val (.list xs)) loc ts2 prompts none
       r1.snapshots r1.file
     r1.report = some Report.created ∧ r2.report = some Report.passed ∧
     r2.snapshots = r1.snapshots ∧ r2.file = r1.file ∧ r2.pending = []) := by
  refine ⟨rfl, ?_⟩
  intro r1 r2
  have hrefl : pyEqB (serializeOutcome (.val (.tuple xs)))
      (serializeOutcome (.val (.list xs))) = true := by
    show pyEqB (serialize_value (.tuple xs)) (serialize_value (.list xs)) = true
    have he : serialize_value (PyVal.tuple xs) = serialize_value (PyVal.list xs) := rfl
    rw [he]
    exact pyEqB_refl _ hwf
  have h1 : r1 =
      { ret := retOf (.val (.tuple xs)),
        snapshots := [(test_name, freshEntry md5 (.val (.tuple xs)) loc ts1)],
        pending := [],
        file := some (dumpStoreFile [(test_name, freshEntry md5 (.val (.tuple xs)) loc ts1)]),
        report := some .created } :=
    wrapper_fresh md5 config test_name (.val (.tuple xs)) loc ts1 prompts
  have h2 := wrapper_pass md5 config test_name (.val (.list xs)) loc ts2 ts1
    (metadataDict loc (result_hash md5 (serializeOutcome (.val (.tuple xs))))) prompts none
    (some (dumpStoreFile [(test_name, freshEntry md5 (.val (.tuple xs)) loc ts1)]))
    (serializeOutcome (.val (.tuple xs))) hrefl
  have h3 : r2 =
      { ret := retOf (.val (.list xs)),
        snapshots := [(test_name, mkSnapshotData (serializeOutcome (.val (.tuple xs))) ts1
          (metadataDict loc (result_hash md5 (serializeOutcome (.val (.tuple xs))))))],
        pending := [],
        file := some (dumpStoreFile [(test_name, freshEntry md5 (.val (.tuple xs)) loc ts1)]),
        report := some Report.passed } := by
    show wrapper md5 config test_name (.val (.list xs)) loc ts2 prompts none
      r1.snapshots r1.file = _
    rw [h1]
    exact h2
  rw [h1, h3]
  exact ⟨rfl, rfl, rfl, rfl, rfl⟩

/-- Witness for the tuple/list invariance at the elements `[1, True]`. -/
theorem tuple_list_normalize_equal_witness :
    wfB (serialize_value (.list [PyVal.int 1, PyVal.bool true])) = true ∧
    (serialize_value (.tuple [PyVal.int 1, PyVal.bool true]) =
       serialize_value (.list [PyVal.int 1, PyVal.bool true]) ∧
     (let r1 := wrapper (fun s => s) ⟨.interactive, false, true⟩ "t_tuple"
        (.val (.tuple [PyVal.int 1, PyVal.bool true]))
        ⟨"test_examples.py", 148, "test_counter"⟩ "T1" [] none [] none
      let r2 := wrapper (fun s => s) ⟨.interactive, false, true⟩ "t_tuple"
        (.val (.list [PyVal.int 1, PyVal.bool true]))
        ⟨"test_examples.py", 148, "test_counter"⟩ "T2" [] none r1.snapshots r1.file
      r1.report = some Report.created ∧ r2.report = some Report.passed ∧
      r2.snapshots = r1.snapshots ∧ r2.file = r1.file ∧ r2.pending = [])) :=
  ⟨by decide, tuple_list_normalize_equal [PyVal.int 1, PyVal.bool true] (fun s => s)
    ⟨.interactive, false, true⟩ "t_tuple" ⟨"test_examples.py", 148, "test_counter"⟩
    "T1" "T2" [] (by decide)⟩

/-- Claim C8: loading the store never aborts — a missing file yields an
empty mapping with no warning, and a corrupt/unparseable file yields an
empty mapping plus the non-fatal "starting fresh" warning, for every file
path and every corrupt content. -/
theorem load_missing_or_corrupt_recovers (snapshot_file : String) :
    load_snapshots snapshot_file .missing = { snapshots := [], warning := none } ∧
    (∀ raw, load_snapshots snapshot_file (.corrupt raw) =
      { snapshots := [],
        warning := some ("Warning: Could not parse " ++ snapshot_file ++
          ", starting fresh") }) :=
  ⟨rfl, fun _ => rfl⟩

/-- Claim C9: exiting the inline expect context with no value captured and
no exception raised in the block raises
`ValueError("No value captured for test '<name>'")` and touches nothing:
no snapshot is created or compared, and the durable mapping, pending
buffer and file bytes are exactly the initial ones. -/
theorem inline_exit_no_capture_raises_value_error (md5 : String → String)
    (config : ExpectTestConfig) (name : String) (file_path : String)
    (line_number : Int) (ts : String) (prompts : List String) (fault : Option Nat)
    (snapshots0 : List (String × Value)) (file0 : Option String) :
    inline_exit md5 config name .null none file_path line_number ts prompts fault
        snapshots0 file0 =
      { ret := .error (.valueError ("No value captured for test \x27" ++ name ++ "\x27")),
        snapshots := snapshots0, pending := [], file := file0, report := none } := rfl
